import Mathlib

/-!
# BookBits: verification of the data-reconciliation and export pipeline

Shallow embedding of the two Python sources (`bookbits.py`, the refined
script, and `main.py`, the earlier variant) of the BookBits repository:
locating the catalog/annotation stores, reading the catalog, reconciling
which books have highlights, retrieving highlight/note pairs, and
serializing them to delimited text (csv) or structured markdown.

Conventions of the embedding:
* SQLite rows are Lean structures; nullable columns are `Option String`.
* The glob expansion result is passed in as a `List String` of paths.
* Python exceptions become the `PyError` sum; fallible operations
  return `Except PyError _`.
* I/O effects of the export step (annotation-store query count, files
  written with their content) are recorded in an explicit `ExportTrace`.
* Python `str.lower()` is modelled as ASCII char-wise lowering
  (`lowerStr`), and single-character `str.replace` as char-wise map.
-/

/-- Python exceptions relevant to the scripts: `FileNotFoundError` (raised
by `bookbits.get_db_path` with a message naming the pattern), `IndexError`
(raised by `main.py`'s `glob.glob(pattern)[0]` on an empty expansion),
`ValueError` (unsupported export format), and `sqlite3.OperationalError`
(a failure reported by the database engine, e.g. on a connection or
query problem — not produced by any modelled execution path, since the
stores are given as in-memory row lists). -/
inductive PyError where
  | fileNotFoundError (msg : String)
  | indexError
  | valueError (msg : String)
  | operationalError (msg : String)
deriving DecidableEq, Repr

/-- One row of the `ZBKLIBRARYASSET` table of the library (catalog) store:
columns `ZASSETID`, `ZSORTTITLE`, `ZSORTAUTHOR`; the title and author
columns are nullable. -/
structure LibraryRow where
  assetId : String
  sortTitle : Option String
  sortAuthor : Option String
deriving DecidableEq, Repr

/-- One row of the `ZAEANNOTATION` table of the annotation store: columns
`ZANNOTATIONASSETID`, `ZANNOTATIONSELECTEDTEXT`, `ZANNOTATIONNOTE`; the
selected-text and note columns are nullable. -/
structure AnnotationRow where
  assetId : String
  selectedText : Option String
  note : Option String
deriving DecidableEq, Repr

/-- Trace of the observable side effects of one `export_annotations`
call: how many queries were issued against the annotation store and
which files were written (filename paired with full content). -/
structure ExportTrace where
  annotationQueries : Nat
  filesWritten : List (String × String)
deriving DecidableEq, Repr

/-- Python `x or default` for a nullable string column, as used in
`get_library_books`: `None` and the empty string are falsy, so both are
replaced by the default; any non-empty string is kept. -/
def pyOrStr (v : Option String) (default : String) : String :=
  match v with
  | none => default
  | some s => if s = "" then default else s

/-- SQL predicate `col != ""` on a nullable text column: `NULL != ""`
evaluates to `NULL`, which is not true, so `NULL` rows are filtered out
along with empty-string rows. -/
def sqlNonEmpty : Option String → Bool
  | none => false
  | some s => s != ""

/-- Python truthiness of an optional string (`if note:`): `None` and the
empty string are falsy. -/
def pyTruthy : Option String → Bool
  | none => false
  | some s => s != ""

/-- Python `str.lower()`, modelled char-wise (the format strings involved
are ASCII). -/
def lowerStr (s : String) : String :=
  String.mk (s.data.map Char.toLower)

/-- Python `', '.join(...)`-style separator join. -/
def joinSep (sep : String) : List String → String
  | [] => ""
  | [s] => s
  | s :: rest => s ++ sep ++ joinSep sep rest

/-- `SELECT DISTINCT` over the listed values, keeping the first
occurrence of each value in row order. -/
def distinctFirst (l : List String) : List String :=
  l.foldl (fun acc x => if x ∈ acc then acc else acc ++ [x]) []

/-! ## Data Store Locator -/

/-- Membership test for the `FileNotFoundError` constructor on a locator
result. -/
def isFileNotFound (r : Except PyError String) : Bool :=
  match r with
  | .error (.fileNotFoundError _) => true
  | _ => false

/-- Membership test for the `ValueError` (InvalidFormat) constructor on
an export result. -/
def isInvalidFormat (r : Except PyError String) : Bool :=
  match r with
  | .error (.valueError _) => true
  | _ => false

/-- `bookbits.get_db_path`: given the glob expansion result `paths` for
`pattern`, raise `FileNotFoundError` naming the pattern when there is no
match, else return the first matching path. -/
def get_db_path (paths : List String) (pattern : String) : Except PyError String :=
  match paths with
  | [] => .error (.fileNotFoundError ("No database found matching pattern: " ++ pattern))
  | p :: _ => .ok p

/-- `main.get_annotation_db_path` / `main.get_library_db_path`: the body is
`glob.glob(pattern)[0]`, so an empty expansion raises `IndexError` (Python
list index out of range), not `FileNotFoundError`. -/
def main_db_first_match (paths : List String) : Except PyError String :=
  match paths with
  | [] => .error .indexError
  | p :: _ => .ok p

/-! ## Library Catalog Reader -/

/-- `get_library_books` (identical in both sources): read every catalog
row and build the asset-id keyed records, substituting the sentinels
`"Unknown Title"` / `"Unknown Author"` for null or empty columns via
Python `or`. The Python dict (asset id is the table's unique key) is
modelled as the list of records in row order. -/
def get_library_books (rows : List LibraryRow) : List (String × String × String) :=
  rows.map fun r =>
    (r.assetId, pyOrStr r.sortTitle "Unknown Title", pyOrStr r.sortAuthor "Unknown Author")

/-! ## Annotation Reconciler -/

/-- `get_library_books_with_highlights` (identical logic in both
sources): take all catalog asset ids, interpolate one `?` placeholder per
id, and run `SELECT DISTINCT ZANNOTATIONASSETID ... WHERE
ZANNOTATIONASSETID IN (placeholders) AND ZANNOTATIONSELECTEDTEXT != ""`.
With an empty catalog the interpolated placeholder string is empty and
the statement reads `IN ()`: SQLite accepts an empty list on the
right-hand side of `IN` (a documented extension), the predicate matches
no row, and the query returns zero rows — so the membership filter below
covers that case by yielding the empty result. The `Except` return
models that `sqlite3.Error` can propagate from connection or query
failure, which is outside the modelled store state. -/
def get_library_books_with_highlights (lib : List LibraryRow) (ann : List AnnotationRow) :
    Except PyError (List String) :=
  let book_ids := (get_library_books lib).map Prod.fst
  .ok (distinctFirst
    ((ann.filter fun r => decide (r.assetId ∈ book_ids) && sqlNonEmpty r.selectedText).map
      fun r => r.assetId))

/-! ## Annotation Retriever -/

/-- The `SELECT ZANNOTATIONSELECTEDTEXT, ZANNOTATIONNOTE FROM
ZAEANNOTATION WHERE ZANNOTATIONASSETID = ? AND ZANNOTATIONSELECTEDTEXT !=
""` query inside `export_annotations`: the rows for one asset id whose
selected text is non-null and non-empty, in store row order. The filter
guarantees the selected text is present, so `getD ""` is never the
default. -/
def annotationsFor (store : List AnnotationRow) (asset_id : String) :
    List (String × Option String) :=
  (store.filter fun r => r.assetId == asset_id && sqlNonEmpty r.selectedText).map
    fun r => (r.selectedText.getD "", r.note)

/-! ## Exporter: delimited-text (csv) serialization

The csv branch of `export_annotations` uses `csv.DictWriter` with
`delimiter=";"`, fieldnames `["Highlight", "Notes"]` and the default
dialect, so the line terminator is `"\r\n"` and QUOTE_MINIMAL quoting
applies: a field is wrapped in double quotes, with embedded double
quotes doubled, exactly when it contains the delimiter `;`, the quote
char `"`, or a line-terminator character `\r` or `\n`. The field text
itself is first sanitized by `highlight.replace("\n", " ")` (and the
same for a present note). Everything is modelled on `List Char`. -/

/-- Python `text.replace("\n", " ")`: every embedded newline becomes a
single space. -/
def sanitizeChars (cs : List Char) : List Char :=
  cs.map fun c => if c = '\n' then ' ' else c

/-- Double every `"` in a field, as the csv writer does inside a quoted
field. -/
def escapeQuotes : List Char → List Char
  | [] => []
  | c :: cs => if c = '"' then '"' :: '"' :: escapeQuotes cs else c :: escapeQuotes cs

/-- QUOTE_MINIMAL trigger: the field contains the `;` delimiter, the `"`
quote char, or a line-terminator character. -/
def needsQuoteChars (f : List Char) : Bool :=
  f.any fun c => c == ';' || c == '"' || c == '\r' || c == '\n'

/-- Write one csv field: quoted with doubled inner quotes when
QUOTE_MINIMAL requires it, verbatim otherwise. -/
def encodeFieldChars (f : List Char) : List Char :=
  if needsQuoteChars f then '"' :: escapeQuotes f ++ ['"'] else f

/-- The `"Notes"` value of one record: `note.replace("\n", " ") if note
else ""`, so an absent (`None`) or empty note writes the empty field. -/
def csvFieldNote : Option (List Char) → List Char
  | none => []
  | some n => if n.isEmpty then [] else sanitizeChars n

/-- One csv record line for a (highlight, note) pair, including the
`"\r\n"` terminator the writer appends. -/
def csvRecordChars (h : List Char) (note : Option (List Char)) : List Char :=
  encodeFieldChars (sanitizeChars h) ++ ';' :: encodeFieldChars (csvFieldNote note) ++ ['\r', '\n']

/-- The header row `Highlight;Notes` written by `writer.writeheader()`. -/
def csvHeaderChars : List Char :=
  ['H', 'i', 'g', 'h', 'l', 'i', 'g', 'h', 't', ';', 'N', 'o', 't', 'e', 's']

/-- Full content of `highlights.csv` for the fetched (highlight, note)
pairs: header row then one record per pair. -/
def exportCsvChars (anns : List (List Char × Option (List Char))) : List Char :=
  csvHeaderChars ++ '\r' :: '\n' :: (anns.map fun a => csvRecordChars a.1 a.2).flatten

/-! ## Csv reader (for the round-trip property)

A standard csv reader for the dialect the writer uses: `;` delimiter,
`"` quoting with doubled inner quotes, `"\r\n"` record terminator. -/

/-- Characters that terminate an unquoted field. -/
def stopChar (c : Char) : Bool :=
  c == ';' || c == '\r' || c == '\n'

/-- Read an unquoted field: longest prefix free of `;`, `\r`, `\n`,
returned with the unconsumed rest. -/
def parseUnquoted : List Char → List Char × List Char
  | [] => ([], [])
  | c :: cs =>
    if stopChar c then ([], c :: cs)
    else
      let p := parseUnquoted cs
      (c :: p.1, p.2)

/-- Read the body of a quoted field (the opening `"` already consumed):
a doubled `""` contributes a literal `"`, a single `"` closes the field;
`none` on an unterminated field. Returns the field text and the rest
after the closing quote. -/
def unquote : List Char → Option (List Char × List Char)
  | [] => none
  | [c] => if c = '"' then some ([], []) else none
  | c1 :: c2 :: cs =>
    if c1 = '"' then
      if c2 = '"' then (unquote cs).map fun p => ('"' :: p.1, p.2)
      else some ([], c2 :: cs)
    else (unquote (c2 :: cs)).map fun p => (c1 :: p.1, p.2)

/-- Read one field, quoted or unquoted. -/
def parseField (cs : List Char) : Option (List Char × List Char) :=
  match cs with
  | '"' :: rest => unquote rest
  | _ => some (parseUnquoted cs)

/-- Read one record line (terminator already stripped): exactly two
fields separated by `;`. -/
def parseLine (cs : List Char) : Option (List Char × List Char) :=
  match parseField cs with
  | none => none
  | some (f1, rest) =>
    match rest with
    | ';' :: rest2 =>
      match parseField rest2 with
      | none => none
      | some (f2, rest3) => if rest3.isEmpty then some (f1, f2) else none
    | _ => none

/-- Split the file on the two-character `"\r\n"` terminator. A file
ending in `"\r\n"` yields a trailing empty chunk. -/
def splitCRLF : List Char → List (List Char)
  | [] => [[]]
  | [c] => [[c]]
  | c1 :: c2 :: cs =>
    if c1 = '\r' ∧ c2 = '\n' then [] :: splitCRLF cs
    else
      match splitCRLF (c2 :: cs) with
      | [] => [[c1]]
      | l :: ls => (c1 :: l) :: ls

/-- Parse the record lines: the chunk list must end with the single
empty chunk left by the final `"\r\n"`, and every earlier chunk must be
a well-formed two-field record. -/
def parseRecordLines : List (List Char) → Option (List (List Char × List Char))
  | [] => none
  | l :: ls =>
    match ls with
    | [] => if l.isEmpty then some [] else none
    | _ :: _ =>
      match parseLine l, parseRecordLines ls with
      | some r, some rs => some (r :: rs)
      | _, _ => none

/-- Parse a whole `highlights.csv` file: header row `Highlight;Notes`
followed by the records. -/
def parseCsvChars (cs : List Char) : Option (List (List Char × List Char)) :=
  match splitCRLF cs with
  | [] => none
  | header :: rest => if header = csvHeaderChars then parseRecordLines rest else none

/-! ## Exporter: structured-markdown serialization and the export entry
points -/

/-- String-level csv content for the fetched (highlight, note) pairs. -/
def csvContent (anns : List (String × Option String)) : String :=
  String.mk (exportCsvChars (anns.map fun a => (a.1.data, a.2.map String.data)))

/-- One markdown block (`bookbits.py` and `main.py` agree): the raw
highlight, a `*note*` line only when the note is truthy, then the `---`
rule. No newline substitution is applied. -/
def mdBlock (a : String × Option String) : String :=
  a.1 ++ "\n" ++ (if pyTruthy a.2 then "*" ++ a.2.getD "" ++ "*\n" else "") ++ "---\n"

/-- `bookbits.py` markdown content: the `# Highlights - <title> \n\n`
heading, then the blocks. -/
def mdContent (book_title : String) (anns : List (String × Option String)) : String :=
  "# Highlights - " ++ book_title ++ " \n\n" ++ String.join (anns.map mdBlock)

/-- `main.py` markdown content: the blocks only, with no title heading
(its `export_annotations` does not even receive the book title). -/
def main_md_content (anns : List (String × Option String)) : String :=
  String.join (anns.map mdBlock)

/-- `SUPPORTED_FORMATS` of `bookbits.py`. -/
def SUPPORTED_FORMATS : List String := ["csv", "md"]

/-- `bookbits.export_annotations`: validate `format.lower()` against
`SUPPORTED_FORMATS` first — raising `ValueError` with the
supported-set-enumerating message before any query or file I/O — then
fetch the annotations, derive `highlights.<format.lower()>`, and write
the csv or markdown content. The trace records the annotation-store
query count and the files written. -/
def export_annotations (store : List AnnotationRow) (asset_id fmt book_title : String) :
    Except PyError String × ExportTrace :=
  if !(SUPPORTED_FORMATS.contains (lowerStr fmt)) then
    (.error (.valueError ("Unsupported format! Please use one of: " ++ joinSep ", " SUPPORTED_FORMATS)),
     ⟨0, []⟩)
  else
    let anns := annotationsFor store asset_id
    let filename := "highlights." ++ lowerStr fmt
    if lowerStr fmt = "csv" then
      (.ok filename, ⟨1, [(filename, csvContent anns)]⟩)
    else
      (.ok filename, ⟨1, [(filename, mdContent book_title anns)]⟩)

/-- `main.export_annotations`: the annotation-store query is executed
FIRST; only then is `format.lower()` validated against
`['csv', 'markdown']` — so an unsupported format still raises
`ValueError` with no file written, but after one store query. The
markdown branch writes no title heading. -/
def main_export_annotations (store : List AnnotationRow) (asset_id fmt : String) :
    Except PyError String × ExportTrace :=
  let anns := annotationsFor store asset_id
  if !((["csv", "markdown"] : List String).contains (lowerStr fmt)) then
    (.error (.valueError "Unsupported format! Please use 'csv' or 'markdown'!"), ⟨1, []⟩)
  else if lowerStr fmt = "csv" then
    (.ok "highlights.csv", ⟨1, [("highlights.csv", csvContent anns)]⟩)
  else
    (.ok "highlights.md", ⟨1, [("highlights.md", main_md_content anns)]⟩)

/-! ## Helper lemmas -/

/-- Membership in the `SELECT DISTINCT` result implies membership among
the scanned values. -/
theorem mem_foldl_distinct {x : String} :
    ∀ (l acc : List String),
      x ∈ l.foldl (fun acc y => if y ∈ acc then acc else acc ++ [y]) acc → x ∈ acc ∨ x ∈ l := by
  intro l
  induction l with
  | nil => exact fun acc h => Or.inl h
  | cons c cs ih =>
    intro acc h
    simp only [List.foldl_cons] at h
    rcases ih _ h with h1 | h1
    · by_cases hc : c ∈ acc
      · simp only [if_pos hc] at h1
        exact Or.inl h1
      · simp only [if_neg hc, List.mem_append, List.mem_singleton] at h1
        rcases h1 with h1 | h1
        · exact Or.inl h1
        · exact Or.inr (h1 ▸ List.mem_cons_self c cs)
    · exact Or.inr (List.mem_cons_of_mem c h1)

theorem mem_of_mem_distinctFirst {x : String} {l : List String}
    (h : x ∈ distinctFirst l) : x ∈ l := by
  rcases mem_foldl_distinct l [] h with h1 | h1
  · exact absurd h1 (List.not_mem_nil x)
  · exact h1

/-- Sanitized text contains no newline: every `'\n'` was mapped to a
space. -/
theorem not_newline_mem_sanitize (f : List Char) : '\n' ∉ sanitizeChars f := by
  intro h
  rcases List.mem_map.mp h with ⟨c, _, hc⟩
  by_cases h1 : c = '\n'
  · rw [if_pos h1] at hc
    exact absurd hc (by decide)
  · rw [if_neg h1] at hc
    exact h1 hc

/-- Quote-doubling only adds `'"'` characters. -/
theorem mem_escapeQuotes {c : Char} {f : List Char} (h : c ∈ escapeQuotes f) :
    c ∈ f ∨ c = '"' := by
  induction f with
  | nil => exact absurd h (List.not_mem_nil c)
  | cons a f ih =>
    simp only [escapeQuotes] at h
    by_cases ha : a = '"'
    · rw [if_pos ha] at h
      rcases List.mem_cons.mp h with h1 | h1
      · exact Or.inr h1
      · rcases List.mem_cons.mp h1 with h2 | h2
        · exact Or.inr h2
        · rcases ih h2 with h3 | h3
          · exact Or.inl (List.mem_cons_of_mem a h3)
          · exact Or.inr h3
    · rw [if_neg ha] at h
      rcases List.mem_cons.mp h with h1 | h1
      · exact Or.inl (h1 ▸ List.mem_cons_self a f)
      · rcases ih h1 with h3 | h3
        · exact Or.inl (List.mem_cons_of_mem a h3)
        · exact Or.inr h3

/-- Quoting a newline-free field yields a newline-free encoding. -/
theorem not_newline_mem_encodeField {f : List Char} (hf : '\n' ∉ f) :
    '\n' ∉ encodeFieldChars f := by
  unfold encodeFieldChars
  split
  · intro h
    rcases List.mem_cons.mp h with h1 | h1
    · exact absurd h1 (by decide)
    · rcases List.mem_append.mp h1 with h2 | h2
      · rcases mem_escapeQuotes h2 with h3 | h3
        · exact hf h3
        · exact absurd h3 (by decide)
      · exact absurd (List.mem_singleton.mp h2) (by decide)
  · exact hf

/-- The `Notes` field value is the sanitized note text, with an absent
note behaving as the empty string. -/
theorem csvFieldNote_eq (o : Option (List Char)) :
    csvFieldNote o = sanitizeChars (o.getD []) := by
  cases o with
  | none => rfl
  | some n =>
    cases n with
    | nil => rfl
    | cons c cs => simp [csvFieldNote]

/-- Reading a quoted-field body inverts quote-doubling: after the
escaped text and the closing quote, the rest is returned untouched
(provided the rest does not itself begin with a quote, which in a
well-formed record it never does: it begins with `;` or ends the
line). -/
theorem unquote_escape (f : List Char) :
    ∀ rest : List Char, rest.head? ≠ some '"' →
      unquote (escapeQuotes f ++ '"' :: rest) = some (f, rest) := by
  induction f with
  | nil =>
    intro rest hrest
    simp only [escapeQuotes, List.nil_append]
    cases rest with
    | nil => rfl
    | cons r rs =>
      have hr : r ≠ '"' := fun h => hrest (by rw [h]; rfl)
      show unquote ('"' :: r :: rs) = some ([], r :: rs)
      unfold unquote
      rw [if_pos rfl, if_neg hr]
  | cons a f ih =>
    intro rest hrest
    by_cases ha : a = '"'
    · subst ha
      rw [show escapeQuotes ('"' :: f) = '"' :: '"' :: escapeQuotes f by
        simp [escapeQuotes]]
      show unquote ('"' :: '"' :: (escapeQuotes f ++ '"' :: rest)) = some ('"' :: f, rest)
      unfold unquote
      rw [if_pos rfl, if_pos rfl, ih rest hrest]
      rfl
    · rw [show escapeQuotes (a :: f) = a :: escapeQuotes f by
        simp [escapeQuotes, ha]]
      cases hE : escapeQuotes f ++ '"' :: rest with
      | nil => simp at hE
      | cons d ds =>
        show unquote (a :: (escapeQuotes f ++ '"' :: rest)) = some (a :: f, rest)
        rw [hE]
        unfold unquote
        rw [if_neg ha, ← hE, ih rest hrest]
        rfl

/-- Reading an unquoted field consumes exactly the stop-character-free
prefix. -/
theorem parseUnquoted_append (f : List Char) (hf : ∀ c ∈ f, stopChar c = false) :
    ∀ rest : List Char, (∀ r rs, rest = r :: rs → stopChar r = true) →
      parseUnquoted (f ++ rest) = (f, rest) := by
  induction f with
  | nil =>
    intro rest hrest
    cases rest with
    | nil => rfl
    | cons r rs =>
      simp only [List.nil_append, parseUnquoted, hrest r rs rfl, if_pos]
  | cons a f ih =>
    intro rest hrest
    have ha : stopChar a = false := hf a (List.mem_cons_self a f)
    show parseUnquoted (a :: (f ++ rest)) = (a :: f, rest)
    unfold parseUnquoted
    rw [ha]
    show (a :: (parseUnquoted (f ++ rest)).1, (parseUnquoted (f ++ rest)).2) = (a :: f, rest)
    rw [ih (fun c hc => hf c (List.mem_cons_of_mem a hc)) rest hrest]

/-- A field that QUOTE_MINIMAL leaves unquoted contains neither stop
characters nor quotes. -/
theorem needsQuote_false_chars {f : List Char} (h : needsQuoteChars f = false) :
    ∀ c ∈ f, stopChar c = false ∧ c ≠ '"' := by
  intro c hc
  have hp : (c == ';' || c == '"' || c == '\r' || c == '\n') = false := by
    by_contra hcon
    have h2 : f.any (fun c => c == ';' || c == '"' || c == '\r' || c == '\n') = true := by
      refine List.any_of_mem hc ?_
      cases hb : (c == ';' || c == '"' || c == '\r' || c == '\n')
      · exact absurd hb hcon
      · rfl
    unfold needsQuoteChars at h
    rw [h] at h2
    exact Bool.false_ne_true h2
  simp only [Bool.or_eq_false_iff, beq_eq_false_iff_ne, ne_eq] at hp
  refine ⟨?_, hp.1.1.2⟩
  unfold stopChar
  simp only [Bool.or_eq_false_iff, beq_eq_false_iff_ne, ne_eq]
  exact ⟨⟨hp.1.1.1, hp.1.2⟩, hp.2⟩

/-- Reading a field written by the QUOTE_MINIMAL encoder returns the
original field text and leaves the rest (empty, or beginning with the
`;` separator) untouched. -/
theorem parseField_encode (f : List Char) (rest : List Char)
    (hrest : rest = [] ∨ ∃ rs, rest = ';' :: rs) :
    parseField (encodeFieldChars f ++ rest) = some (f, rest) := by
  by_cases hq : needsQuoteChars f = true
  · unfold encodeFieldChars
    rw [if_pos hq]
    have hsh : ('"' :: escapeQuotes f ++ ['"']) ++ rest
        = '"' :: (escapeQuotes f ++ '"' :: rest) := by simp
    rw [hsh]
    show unquote (escapeQuotes f ++ '"' :: rest) = some (f, rest)
    apply unquote_escape
    rcases hrest with h | ⟨rs, h⟩ <;> subst h <;> simp
  · have hq' : needsQuoteChars f = false := by
      cases hb : needsQuoteChars f
      · rfl
      · exact absurd hb hq
    have hchars := needsQuote_false_chars hq'
    unfold encodeFieldChars
    rw [if_neg (by rw [hq']; exact Bool.false_ne_true)]
    cases f with
    | nil =>
      rcases hrest with h | ⟨rs, h⟩ <;> subst h <;> rfl
    | cons a f' =>
      have ha : a ≠ '"' := (hchars a (List.mem_cons_self a f')).2
      show parseField (a :: (f' ++ rest)) = some (a :: f', rest)
      unfold parseField
      split
      · next heq =>
        rw [List.cons.injEq] at heq
        exact absurd heq.1 ha
      · rw [show a :: (f' ++ rest) = (a :: f') ++ rest from rfl]
        rw [parseUnquoted_append (a :: f') (fun c hc => (hchars c hc).1) rest
          (fun r rs hr => by
            rcases hrest with h | ⟨rs2, h⟩ <;> subst h
            · exact absurd hr (List.cons_ne_nil r rs).symm
            · rw [List.cons.injEq] at hr
              rw [← hr.1]
              rfl)]

/-- Reading one record line written by the encoder returns the two
original fields. -/
theorem parseLine_encode (f1 f2 : List Char) :
    parseLine (encodeFieldChars f1 ++ ';' :: encodeFieldChars f2) = some (f1, f2) := by
  have h1 := parseField_encode f1 (';' :: encodeFieldChars f2) (Or.inr ⟨_, rfl⟩)
  have h2 : parseField (encodeFieldChars f2) = some (f2, []) := by
    have := parseField_encode f2 [] (Or.inl rfl)
    rwa [List.append_nil] at this
  simp only [parseLine, h1, h2, List.isEmpty_nil, if_true]

/-- Splitting never yields the empty chunk list. -/
theorem splitCRLF_ne_nil (cs : List Char) : splitCRLF cs ≠ [] := by
  match cs with
  | [] => simp [splitCRLF]
  | [c] => simp [splitCRLF]
  | c1 :: c2 :: cs =>
    unfold splitCRLF
    split
    · simp
    · split <;> simp

/-- Unfolding equation: a leading record terminator splits off an empty
chunk. -/
theorem splitCRLF_crlf (cs : List Char) :
    splitCRLF ('\r' :: '\n' :: cs) = [] :: splitCRLF cs := rfl

/-- Unfolding equation for a two-character head that is not the record
terminator. -/
theorem splitCRLF_cons (c1 c2 : Char) (cs : List Char) (h : ¬(c1 = '\r' ∧ c2 = '\n')) :
    splitCRLF (c1 :: c2 :: cs)
      = match splitCRLF (c2 :: cs) with
        | [] => [[c1]]
        | l :: ls => (c1 :: l) :: ls := by
  conv_lhs => simp only [splitCRLF]
  rw [if_neg h]

/-- Splitting a file that starts with a newline-free chunk followed by
a record terminator peels off exactly that chunk. -/
theorem splitCRLF_append (l : List Char) (hl : '\n' ∉ l) (rest : List Char) :
    splitCRLF (l ++ '\r' :: '\n' :: rest) = l :: splitCRLF rest := by
  induction l with
  | nil => exact splitCRLF_crlf rest
  | cons c l' ih =>
    have hl' : '\n' ∉ l' := fun h => hl (List.mem_cons_of_mem c h)
    cases l' with
    | nil =>
      show splitCRLF (c :: '\r' :: '\n' :: rest) = [c] :: splitCRLF rest
      rw [splitCRLF_cons c '\r' ('\n' :: rest) (fun h => absurd h.2 (by decide)),
        splitCRLF_crlf]
    | cons e l'' =>
      have he : e ≠ '\n' := fun h => hl (h ▸ List.mem_cons_of_mem c (List.mem_cons_self e l''))
      show splitCRLF (c :: e :: (l'' ++ '\r' :: '\n' :: rest))
        = (c :: e :: l'') :: splitCRLF rest
      rw [splitCRLF_cons c e (l'' ++ '\r' :: '\n' :: rest) (fun h => he h.2)]
      rw [show e :: (l'' ++ '\r' :: '\n' :: rest) = (e :: l'') ++ '\r' :: '\n' :: rest from rfl]
      rw [ih hl']

/-- Unfolding equation: a record line followed by at least one more
chunk must parse, and the remaining chunks must parse recursively. -/
theorem parseRecordLines_cons (l m : List Char) (ms : List (List Char)) :
    parseRecordLines (l :: m :: ms)
      = match parseLine l, parseRecordLines (m :: ms) with
        | some r, some rs => some (r :: rs)
        | _, _ => none := rfl

/-- Parsing the record lines of an encoded export recovers every
sanitized (highlight, note) pair in order. -/
theorem parseRecordLines_export (anns : List (List Char × Option (List Char))) :
    parseRecordLines (splitCRLF ((anns.map fun a => csvRecordChars a.1 a.2).flatten))
      = some (anns.map fun a => (sanitizeChars a.1, csvFieldNote a.2)) := by
  induction anns with
  | nil => rfl
  | cons a anns ih =>
    simp only [List.map_cons, List.flatten_cons]
    have hshape : csvRecordChars a.1 a.2
          ++ (List.map (fun a => csvRecordChars a.1 a.2) anns).flatten
        = (encodeFieldChars (sanitizeChars a.1) ++ ';' :: encodeFieldChars (csvFieldNote a.2))
          ++ '\r' :: '\n' :: (List.map (fun a => csvRecordChars a.1 a.2) anns).flatten := by
      simp [csvRecordChars, List.append_assoc]
    have hbody : '\n' ∉ encodeFieldChars (sanitizeChars a.1)
        ++ ';' :: encodeFieldChars (csvFieldNote a.2) := by
      intro hmem
      rcases List.mem_append.mp hmem with h1 | h1
      · exact not_newline_mem_encodeField (not_newline_mem_sanitize a.1) h1
      · rcases List.mem_cons.mp h1 with h2 | h2
        · exact absurd h2 (by decide)
        · refine not_newline_mem_encodeField ?_ h2
          rw [csvFieldNote_eq]
          exact not_newline_mem_sanitize _
    rw [hshape, splitCRLF_append _ hbody]
    cases hsp : splitCRLF (List.map (fun a => csvRecordChars a.1 a.2) anns).flatten with
    | nil => exact absurd hsp (splitCRLF_ne_nil _)
    | cons m ms =>
      rw [hsp] at ih
      rw [parseRecordLines_cons, parseLine_encode, ih]

/-- C2: with an empty catalog the interpolated placeholder list is
empty and the statement reads `IN ()`; SQLite accepts the empty `IN`
list (a documented extension), the predicate matches no row, and the
reconciler returns an empty result without raising — for every
annotation store. -/
theorem empty_catalog_reconcile_empty (ann : List AnnotationRow) :
    get_library_books_with_highlights [] ann = .ok [] := by
  simp only [get_library_books_with_highlights]
  have hf : (ann.filter fun r =>
      decide (r.assetId ∈ (get_library_books ([] : List LibraryRow)).map Prod.fst)
        && sqlNonEmpty r.selectedText) = [] := by
    induction ann with
    | nil => rfl
    | cons a t ih =>
      rw [List.filter_cons, ih]
      rfl
  rw [hf]
  rfl

/-- C3 counterexample: in `main.py` the locator body is
`glob.glob(pattern)[0]`, so a zero-match expansion fails with
`IndexError`, not with a NotFound (`FileNotFoundError`) error. -/
theorem main_resolve_zero_matches_not_notfound :
    isFileNotFound (main_db_first_match []) = false ∧
      main_db_first_match [] = .error .indexError := ⟨rfl, rfl⟩

/-- C3 (amended): `bookbits.get_db_path` fails with `FileNotFoundError`
naming the pattern when the expansion yields zero matches and returns
the first matching path otherwise; `main.py`'s locator variant also
returns the first match but fails with `IndexError` on zero matches. -/
theorem resolve_first_match_or_error (pattern p : String) (rest : List String) :
    get_db_path [] pattern =
      .error (.fileNotFoundError ("No database found matching pattern: " ++ pattern))
    ∧ get_db_path (p :: rest) pattern = .ok p
    ∧ main_db_first_match [] = .error .indexError
    ∧ main_db_first_match (p :: rest) = .ok p :=
  ⟨rfl, rfl, rfl, rfl⟩

/-- C6: an absent note (`None`) and an empty-but-present note (`""`)
render identically as "no note": the csv record writes an empty `Notes`
field (nothing between the `;` and the record terminator), and the
markdown block omits the `*...*` emphasis line entirely. -/
theorem note_absent_or_empty_renders_no_note (h : List Char) (hs : String) :
    csvRecordChars h none = encodeFieldChars (sanitizeChars h) ++ ';' :: '\r' :: '\n' :: []
    ∧ csvRecordChars h (some []) = encodeFieldChars (sanitizeChars h) ++ ';' :: '\r' :: '\n' :: []
    ∧ mdBlock (hs, none) = hs ++ "\n" ++ "---\n"
    ∧ mdBlock (hs, some "") = hs ++ "\n" ++ "---\n" := by
  refine ⟨?_, ?_, ?_, ?_⟩
  · simp [csvRecordChars, csvFieldNote, encodeFieldChars, needsQuoteChars]
  · simp [csvRecordChars, csvFieldNote, encodeFieldChars, needsQuoteChars]
  · simp [mdBlock, pyTruthy, String.append_empty, String.append_assoc]
  · simp [mdBlock, pyTruthy, String.append_empty, String.append_assoc]

/-- C7: every catalog row yields a record whose title and author are the
sentinels `"Unknown Title"` / `"Unknown Author"` when the source column
is null or empty, and the verbatim column value otherwise; the asset id
is kept unchanged. -/
theorem library_sentinel_defaults (rows : List LibraryRow) (r : LibraryRow) (h : r ∈ rows) :
    ∃ p ∈ get_library_books rows, p.1 = r.assetId
      ∧ ((r.sortTitle = none ∨ r.sortTitle = some "") → p.2.1 = "Unknown Title")
      ∧ (∀ t, r.sortTitle = some t → t ≠ "" → p.2.1 = t)
      ∧ ((r.sortAuthor = none ∨ r.sortAuthor = some "") → p.2.2 = "Unknown Author")
      ∧ (∀ a, r.sortAuthor = some a → a ≠ "" → p.2.2 = a) := by
  refine ⟨(r.assetId, pyOrStr r.sortTitle "Unknown Title", pyOrStr r.sortAuthor "Unknown Author"),
    List.mem_map_of_mem _ h, rfl, ?_, ?_, ?_, ?_⟩
  · rintro (h1 | h1) <;> simp [pyOrStr, h1]
  · intro t h1 h2
    simp [pyOrStr, h1, h2]
  · rintro (h1 | h1) <;> simp [pyOrStr, h1]
  · intro a h1 h2
    simp [pyOrStr, h1, h2]

theorem library_sentinel_defaults_witness :
    ∃ p ∈ get_library_books [LibraryRow.mk "b1" none (some "")], p.1 = "b1"
      ∧ (((none : Option String) = none ∨ (none : Option String) = some "") →
          p.2.1 = "Unknown Title")
      ∧ (∀ t, (none : Option String) = some t → t ≠ "" → p.2.1 = t)
      ∧ ((some "" = (none : Option String) ∨ (some "" : Option String) = some "") →
          p.2.2 = "Unknown Author")
      ∧ (∀ a, (some "" : Option String) = some a → a ≠ "" → p.2.2 = a) :=
  library_sentinel_defaults [LibraryRow.mk "b1" none (some "")]
    (LibraryRow.mk "b1" none (some "")) (List.mem_singleton.mpr rfl)

/-- C8: every identifier returned by the reconciler is a catalog key and
has at least one annotation row with non-empty selected text; a
candidate with no such annotation row is excluded from the result. -/
theorem highlighted_books_sound (lib : List LibraryRow) (ann : List AnnotationRow)
    (ids : List String) (h : get_library_books_with_highlights lib ann = .ok ids) :
    (∀ b ∈ ids, b ∈ (get_library_books lib).map Prod.fst
       ∧ ∃ r ∈ ann, r.assetId = b ∧ sqlNonEmpty r.selectedText = true)
    ∧ ∀ b, (¬ ∃ r ∈ ann, r.assetId = b ∧ sqlNonEmpty r.selectedText = true) → b ∉ ids := by
  simp only [get_library_books_with_highlights, Except.ok.injEq] at h
  subst h
  have key : ∀ b ∈ distinctFirst
      ((List.filter (fun r => decide (r.assetId ∈ (get_library_books lib).map Prod.fst)
          && sqlNonEmpty r.selectedText) ann).map fun r => r.assetId),
      b ∈ (get_library_books lib).map Prod.fst
        ∧ ∃ r ∈ ann, r.assetId = b ∧ sqlNonEmpty r.selectedText = true := by
    intro b hb
    have hb2 := mem_of_mem_distinctFirst hb
    rcases List.mem_map.mp hb2 with ⟨r, hr, hrb⟩
    rcases List.mem_filter.mp hr with ⟨hrann, hp⟩
    have hp12 : decide (r.assetId ∈ (get_library_books lib).map Prod.fst) = true
        ∧ sqlNonEmpty r.selectedText = true := by simpa using hp
    exact ⟨hrb ▸ of_decide_eq_true hp12.1, r, hrann, hrb, hp12.2⟩
  exact ⟨key, fun b hno hb => hno (key b hb).2⟩

theorem highlighted_books_sound_witness :
    (∀ b ∈ (["b1"] : List String),
        b ∈ (get_library_books [LibraryRow.mk "b1" (some "Moby Dick") (some "Melville")]).map Prod.fst
        ∧ ∃ r ∈ [AnnotationRow.mk "b1" (some "Call me Ishmael.") none],
            r.assetId = b ∧ sqlNonEmpty r.selectedText = true)
    ∧ ∀ b, (¬ ∃ r ∈ [AnnotationRow.mk "b1" (some "Call me Ishmael.") none],
          r.assetId = b ∧ sqlNonEmpty r.selectedText = true) → b ∉ (["b1"] : List String) :=
  highlighted_books_sound [LibraryRow.mk "b1" (some "Moby Dick") (some "Melville")]
    [AnnotationRow.mk "b1" (some "Call me Ishmael.") none] ["b1"] rfl

/-- C4: the delimited-text export always writes the `Highlight;Notes`
header row (even for zero annotations), then one semicolon-delimited
record per annotation, and parsing the file back with a reader for the
same csv dialect recovers exactly one record per annotation whose
`Highlight` and `Notes` fields equal the source text with every embedded
newline replaced by a single space (an absent note reads back as the
empty string). -/
theorem csv_export_round_trip (anns : List (List Char × Option (List Char))) :
    exportCsvChars [] = csvHeaderChars ++ ['\r', '\n']
    ∧ parseCsvChars (exportCsvChars anns)
        = some (anns.map fun a => (sanitizeChars a.1, sanitizeChars (a.2.getD []))) := by
  constructor
  · rfl
  · have hsplit := splitCRLF_append csvHeaderChars (by decide)
      ((anns.map fun a => csvRecordChars a.1 a.2).flatten)
    show parseCsvChars (csvHeaderChars ++ '\r' :: '\n' ::
        (anns.map fun a => csvRecordChars a.1 a.2).flatten) = _
    unfold parseCsvChars
    rw [hsplit]
    show (if csvHeaderChars = csvHeaderChars then
        parseRecordLines (splitCRLF ((anns.map fun a => csvRecordChars a.1 a.2).flatten))
      else none) = _
    rw [if_pos rfl, parseRecordLines_export]
    refine congrArg some (List.map_congr_left fun a _ => ?_)
    rw [csvFieldNote_eq]

/-- Unfolding the truthiness test in one markdown block: the `*...*`
emphasis line appears exactly when the note is present and non-empty. -/
theorem mdBlock_eq (a : String × Option String) :
    mdBlock a = a.1 ++ "\n" ++ (match a.2 with
      | some n => if n = "" then "" else "*" ++ n ++ "*\n"
      | none => "") ++ "---\n" := by
  rcases a with ⟨t, note⟩
  cases note with
  | none => rfl
  | some n =>
    by_cases hn : n = ""
    · subst hn
      rfl
    · simp [mdBlock, pyTruthy, hn]

/-- Map form of `mdBlock_eq` over a whole export. -/
theorem mdBlocks_map (anns : List (String × Option String)) :
    List.map mdBlock anns = anns.map fun a =>
      a.1 ++ "\n" ++ (match a.2 with
        | some n => if n = "" then "" else "*" ++ n ++ "*\n"
        | none => "") ++ "---\n" :=
  List.map_congr_left fun a _ => mdBlock_eq a

/-- C5 counterexample: `main.py`'s markdown export writes no title
heading at all — exporting one annotation yields a file whose whole
content is the annotation block, with no heading marker anywhere. -/
theorem main_md_export_no_heading :
    (main_export_annotations [AnnotationRow.mk "b1" (some "Call me Ishmael.") none]
        "b1" "markdown").2.filesWritten
      = [("highlights.md", "Call me Ishmael.\n---\n")]
    ∧ '#' ∉ ("Call me Ishmael.\n---\n").data :=
  ⟨rfl, by decide⟩

/-- C5 (amended): `bookbits.py`'s markdown export writes the top-level
`# Highlights - <title>` heading, then one block per annotation — the
raw highlight text, the note wrapped in `*...*` when truthy, a `---`
rule — with no newline substitution anywhere, so highlights and notes
appear verbatim; `main.py`'s markdown variant writes the same blocks
but omits the title heading. -/
theorem md_export_structure (st : List AnnotationRow) (aid title : String) :
    (export_annotations st aid "md" title).2.filesWritten
      = [("highlights.md",
          "# Highlights - " ++ title ++ " \n\n"
            ++ String.join ((annotationsFor st aid).map fun a =>
                a.1 ++ "\n" ++ (match a.2 with
                    | some n => if n = "" then "" else "*" ++ n ++ "*\n"
                    | none => "") ++ "---\n"))]
    ∧ (main_export_annotations st aid "markdown").2.filesWritten
      = [("highlights.md",
          String.join ((annotationsFor st aid).map fun a =>
            a.1 ++ "\n" ++ (match a.2 with
                | some n => if n = "" then "" else "*" ++ n ++ "*\n"
                | none => "") ++ "---\n"))] := by
  constructor
  · rw [show (export_annotations st aid "md" title).2.filesWritten
        = [("highlights.md", mdContent title (annotationsFor st aid))] from rfl]
    simp only [mdContent, mdBlocks_map]
  · rw [show (main_export_annotations st aid "markdown").2.filesWritten
        = [("highlights.md", main_md_content (annotationsFor st aid))] from rfl]
    simp only [main_md_content, mdBlocks_map]

/-- C1 counterexample: calling `main.py`'s export with the unsupported
format `"pdf"` does raise `ValueError` with no file written, but only
AFTER issuing the annotation-store query: the trace records one query,
refuting "no annotation-store query is issued". -/
theorem main_export_invalid_format_queries_store :
    (main_export_annotations [] "b1" "pdf").2.annotationQueries = 1
    ∧ (main_export_annotations [] "b1" "pdf").1
        = .error (.valueError "Unsupported format! Please use 'csv' or 'markdown'!") :=
  ⟨rfl, rfl⟩

/-- C1 (amended): for every unsupported format string,
`bookbits.export_annotations` raises `ValueError` before any I/O — zero
annotation-store queries, no file written — with a message enumerating
the supported set (`csv, md`); `main.py`'s variant also raises
`ValueError` naming its formats and writes no file, but only after
issuing the annotation-store query. -/
theorem export_invalid_format_rejected (st : List AnnotationRow) (aid fmt title : String)
    (h1 : SUPPORTED_FORMATS.contains (lowerStr fmt) = false)
    (h2 : (["csv", "markdown"] : List String).contains (lowerStr fmt) = false) :
    export_annotations st aid fmt title
      = (.error (.valueError "Unsupported format! Please use one of: csv, md"),
         ⟨0, []⟩)
    ∧ (main_export_annotations st aid fmt).1
        = .error (.valueError "Unsupported format! Please use 'csv' or 'markdown'!")
    ∧ (main_export_annotations st aid fmt).2.filesWritten = [] := by
  refine ⟨?_, ?_, ?_⟩
  · unfold export_annotations
    rw [h1]
    rfl
  · unfold main_export_annotations
    rw [h2]
    rfl
  · unfold main_export_annotations
    rw [h2]
    rfl

theorem export_invalid_format_rejected_witness :
    export_annotations [] "b1" "pdf" "T"
      = (.error (.valueError "Unsupported format! Please use one of: csv, md"),
         ⟨0, []⟩)
    ∧ (main_export_annotations [] "b1" "pdf").1
        = .error (.valueError "Unsupported format! Please use 'csv' or 'markdown'!")
    ∧ (main_export_annotations [] "b1" "pdf").2.filesWritten = [] :=
  export_invalid_format_rejected [] "b1" "pdf" "T" (by decide) (by decide)

/-- C9: format recognition is case-insensitive: whenever the lower-cased
format is supported, export does not raise InvalidFormat and produces
exactly the result (filename and file content) of the lower-cased
format, because the code only ever consults `format.lower()`. -/
theorem export_format_case_insensitive (st : List AnnotationRow) (aid fmt title : String)
    (h : lowerStr fmt = "csv" ∨ lowerStr fmt = "md") :
    export_annotations st aid fmt title = export_annotations st aid (lowerStr fmt) title
    ∧ isInvalidFormat (export_annotations st aid fmt title).1 = false := by
  have hid : lowerStr (lowerStr fmt) = lowerStr fmt := by
    rcases h with h | h <;> rw [h] <;> rfl
  constructor
  · unfold export_annotations
    rw [hid]
  · rcases h with h | h <;> unfold export_annotations <;> rw [h] <;> rfl

theorem export_format_case_insensitive_witness :
    export_annotations [] "b1" "CSV" "T" = export_annotations [] "b1" (lowerStr "CSV") "T"
    ∧ isInvalidFormat (export_annotations [] "b1" "CSV" "T").1 = false :=
  export_format_case_insensitive [] "b1" "CSV" "T" (Or.inl (by decide))

/-- The markdown content of an annotation-free export is just the title
heading. -/
theorem mdContent_nil (title : String) :
    mdContent title [] = "# Highlights - " ++ title ++ " \n\n" := by
  unfold mdContent
  rw [show String.join (List.map mdBlock []) = "" from rfl, String.append_empty]

/-- C10: for an identifier with zero matching annotation rows (in
particular an identifier unknown to the store), export with a supported
format succeeds, returns the format-derived filename, and writes a file
holding only the header row (csv) or only the title heading
(markdown). -/
theorem export_zero_annotations (st : List AnnotationRow) (aid fmt title : String)
    (h0 : annotationsFor st aid = [])
    (h1 : lowerStr fmt = "csv" ∨ lowerStr fmt = "md") :
    (export_annotations st aid fmt title).1 = .ok ("highlights." ++ lowerStr fmt)
    ∧ (export_annotations st aid fmt title).2.filesWritten
        = [("highlights." ++ lowerStr fmt,
            if lowerStr fmt = "csv" then "Highlight;Notes\r\n"
            else "# Highlights - " ++ title ++ " \n\n")] := by
  rcases h1 with h | h
  · refine ⟨?_, ?_⟩
    · simp only [export_annotations, h]
      rfl
    · simp only [export_annotations, h, h0]
      rfl
  · refine ⟨?_, ?_⟩
    · simp only [export_annotations, h]
      rfl
    · simp only [export_annotations, h, h0]
      rw [mdContent_nil]
      rfl

theorem export_zero_annotations_witness :
    (export_annotations [] "b1" "csv" "T").1 = .ok ("highlights." ++ lowerStr "csv")
    ∧ (export_annotations [] "b1" "csv" "T").2.filesWritten
        = [("highlights." ++ lowerStr "csv",
            if lowerStr "csv" = "csv" then "Highlight;Notes\r\n"
            else "# Highlights - " ++ "T" ++ " \n\n")] :=
  export_zero_annotations [] "b1" "csv" "T" rfl (Or.inl (by decide))

